import Mathlib

/-!
# Upload server (`src/app.js`): filename resolver, upload handler, listing facade

A shallow embedding of the decision logic of `src/app.js` together with the
properties stated about it.

JavaScript strings are sequences of UTF-16 code units; they are modelled as
lists of natural numbers (one number per code unit).  The regular expression
of the resolver has no `u` flag, so it works code unit by code unit.
-/

namespace UploadServer

/-! ## JavaScript strings -/

/-- A JavaScript string: the list of its UTF-16 code units. -/
abbrev JSString := List Nat

/-- UTF-16 encoding of one Unicode scalar value (a surrogate pair above the BMP). -/
def utf16Char (c : Char) : List Nat :=
  if c.toNat < 65536 then [c.toNat]
  else [55296 + (c.toNat - 65536) / 1024, 56320 + (c.toNat - 65536) % 1024]

/-- The JavaScript string denoted by a piece of text. -/
def js (s : String) : JSString :=
  s.toList.flatMap utf16Char

/-- Code unit of `/`. -/
def CHAR_FORWARD_SLASH : Nat := 47

/-- Code unit of `.`. -/
def CHAR_DOT : Nat := 46

/-- Code unit of `_`, the replacement character of the sanitizer. -/
def CHAR_UNDERSCORE : Nat := 95

/-- Code unit of `-`. -/
def CHAR_HYPHEN : Nat := 45

/-! ## `path.extname` (Node, POSIX flavour)

`app.js` line 22 calls `path.extname(file.originalname)`.  The function is the
one of Node's `path` module; the loop below follows it variable by variable
(`startDot`, `startPart`, `end`, `matchedSlash`, `preDotState`, with `-1` as
"unset"). -/

/-- The local variables of `path.extname`. -/
structure ExtState where
  startDot : Int
  startPart : Int
  endPos : Int
  matchedSlash : Bool
  preDotState : Int
deriving DecidableEq, Repr

/-- Initial values of the locals of `path.extname`. -/
def ExtState.init : ExtState :=
  { startDot := -1, startPart := 0, endPos := -1, matchedSlash := true, preDotState := 0 }

/-- Body of the loop of `path.extname` for a code unit that is not `/`. -/
def extnameStep (code : Nat) (i : Nat) (s : ExtState) : ExtState :=
  let s1 : ExtState :=
    if s.endPos = -1 then { s with matchedSlash := false, endPos := (i : Int) + 1 } else s
  if code = CHAR_DOT then
    if s1.startDot = -1 then { s1 with startDot := (i : Int) }
    else if s1.preDotState ≠ 1 then { s1 with preDotState := 1 }
    else s1
  else if s1.startDot ≠ -1 then { s1 with preDotState := -1 }
  else s1

/-- The loop `for (let i = path.length - 1; i >= 0; --i)` of `path.extname`;
the first argument is `i + 1`.  A `/` met after a non-separator ends the loop
(`break`) after recording `startPart`. -/
def extnameLoop (path : JSString) : Nat → ExtState → ExtState
  | 0, s => s
  | i + 1, s =>
    let code := path.getD i 0
    if code = CHAR_FORWARD_SLASH then
      if !s.matchedSlash then { s with startPart := (i : Int) + 1 }
      else extnameLoop path i s
    else extnameLoop path i (extnameStep code i s)

/-- The slice `path.slice(a, b)` for `0 ≤ a ≤ b`. -/
def jsSlice (path : JSString) (a b : Int) : JSString :=
  (path.drop a.toNat).take (b.toNat - a.toNat)

/-- The function `path.extname`: the extension of the last path component,
from its last `.` on, or the empty string. -/
def extname (path : JSString) : JSString :=
  let s := extnameLoop path path.length ExtState.init
  if s.startDot = -1 ∨ s.endPos = -1 ∨ s.preDotState = 0 ∨
      (s.preDotState = 1 ∧ s.startDot = s.endPos - 1 ∧ s.startDot = s.startPart + 1) then []
  else jsSlice path s.startDot s.endPos

/-- Loop invariant of `path.extname` before index `n - 1` is examined. -/
def ExtInv (path : JSString) (n : Nat) (s : ExtState) : Prop :=
  (s.matchedSlash = true → s.endPos = -1) ∧
  (s.endPos = -1 → s.startDot = -1) ∧
  (s.endPos ≠ -1 → (n : Int) ≤ s.endPos ∧
    ∀ j : Nat, n ≤ j → (j : Int) < s.endPos → path.getD j 0 ≠ CHAR_FORWARD_SLASH) ∧
  (s.startDot ≠ -1 → (n : Int) ≤ s.startDot ∧ s.startDot < s.endPos)

/-! ## Filename resolver (`storage.filename`, `app.js` lines 21-42) -/

/-- Membership of a code unit in the character class `[a-zA-Z0-9-_\.]` of the
regular expression on line 32 (ranges `a-z`, `A-Z`, `0-9`, then the literals
`-`, `_` and `.`). -/
def inSafeClass (c : Nat) : Bool :=
  (97 ≤ c && c ≤ 122) || (65 ≤ c && c ≤ 90) || (48 ≤ c && c ≤ 57) ||
    c == CHAR_HYPHEN || c == CHAR_UNDERSCORE || c == CHAR_DOT

/-- The call `publicId.replace(/[^a-zA-Z0-9-_\.]/g, '_')`: every code unit
matched by the negated class is replaced by `_`. -/
def replaceUnsafe (publicId : JSString) : JSString :=
  publicId.map (fun c => if inSafeClass c then c else CHAR_UNDERSCORE)

/-- The characters the specification lists as kept by the sanitizer: ASCII
letters, ASCII digits, `-`, `_` and `.`. -/
def specAllowedChars : JSString :=
  js "abcdefghijklmnopqrstuvwxyzABCDEFGHIJKLMNOPQRSTUVWXYZ0123456789-_."

/-- Sanitizer as the specification words it: a character outside the allowed
set becomes `_`, every other character is left unchanged. -/
def sanitizeSpec : JSString → JSString
  | [] => []
  | c :: cs => (if c ∈ specAllowedChars then c else CHAR_UNDERSCORE) :: sanitizeSpec cs

/-- A JavaScript value as far as line 27 observes it: `undefined`, a string,
or any other value, given by its truthiness and by what `String(·)` does with
it (`none` when the conversion throws). -/
inductive JSValue where
  | undefined
  | str (s : JSString)
  | other (truthy : Bool) (toStr : Option JSString)
deriving DecidableEq, Repr

/-- Truthiness (`ToBoolean`) of a value. -/
def JSValue.toBoolean : JSValue → Bool
  | .undefined => false
  | .str s => !s.isEmpty
  | .other t _ => t

/-- The conversion `String(v)`; `none` when it throws. -/
def JSValue.toJSString : JSValue → Option JSString
  | .undefined => some (js "undefined")
  | .str s => some s
  | .other _ r => r

/-- The object `req.body`, of which the resolver reads the field `publicId`. -/
structure Body where
  publicId : JSValue
deriving DecidableEq, Repr

/-- Contents of a file. -/
abbrev Bytes := List Nat

/-- The file part of a multipart request: the `filename` of its content
disposition, its bytes, and the form field that carries it, which is `file`
for the form of the index page (line 96). -/
structure FilePart where
  originalname : JSString
  content : Bytes
  fieldname : JSString := js "file"
deriving DecidableEq, Repr

/-- A finite non-negative IEEE double, given as the dyadic rational `m / 2^e`. -/
structure Dbl where
  m : Nat
  e : Nat
deriving DecidableEq, Repr

/-- Counts the binary digits of `n`, with `fuel` bounding the number of halvings. -/
def bitLengthAux : Nat → Nat → Nat
  | 0, _ => 0
  | fuel + 1, n => if n = 0 then 0 else bitLengthAux fuel (n / 2) + 1

/-- Number of binary digits of `n` (`0` for `0`). -/
def bitLength (n : Nat) : Nat :=
  bitLengthAux n n

/-- Rounding of the rational `n / 2^e` to the nearest double (53 significant
bits, ties to even); exact for `e ≤ 1074` and values below the overflow
threshold. -/
def roundToDouble (n e : Nat) : Dbl :=
  let len := bitLength n
  if len ≤ 53 then { m := n, e := e }
  else
    let s := len - 53
    let q := n / 2 ^ s
    let r := n % 2 ^ s
    let half := 2 ^ (s - 1)
    let q1 := if half < r ∨ (r = half ∧ q % 2 = 1) then q + 1 else q
    if s ≤ e then { m := q1, e := e - s } else { m := q1 * 2 ^ (s - e), e := 0 }

/-- The floating-point product `x * 1E9`. -/
def Dbl.mulE9 (x : Dbl) : Dbl :=
  roundToDouble (x.m * 1000000000) x.e

/-- The function `Math.round` on a non-negative double: the nearest integer,
a tie going up, i.e. the floor of `y + 1/2`. -/
def mathRound (y : Dbl) : Nat :=
  (2 * y.m + 2 ^ y.e) / 2 ^ (y.e + 1)

/-- The random component `Math.round(Math.random() * 1E9)` of line 40, as a
function of the value `x` returned by `Math.random()`. -/
def randomComponent (x : Dbl) : Nat :=
  mathRound x.mulE9

/-- What the fallback branch reads from the outside: the clock `Date.now()`
(epoch milliseconds) and the value of `Math.random()`. -/
structure Env where
  now : Nat
  random : Dbl
deriving DecidableEq, Repr

/-- Decimal rendering of a non-negative integer, as string concatenation
produces it for a number. -/
def numberToString (n : Nat) : JSString :=
  (Nat.toDigits 10 n).map Char.toNat

/-- Line 27: `req.body && req.body.publicId ? String(req.body.publicId) : null`.
The outer `none` is a thrown exception, the inner `none` is `null`. -/
def readPublicId (body : Option Body) : Option (Option JSString) :=
  match body with
  | none => some none
  | some b =>
    if b.publicId.toBoolean then
      match b.publicId.toJSString with
      | some s => some (some s)
      | none => none
    else some none

/-- The `try` block of lines 26-38: `some name` when the callback is called
with the identifier-based name on line 33, `none` when control falls through
to the fallback (no identifier, an empty one, or an exception). -/
def identifierName (body : Option Body) (ext : JSString) : Option JSString :=
  match readPublicId body with
  | some (some publicId) =>
    if publicId ≠ [] then some (replaceUnsafe publicId ++ ext) else none
  | some none => none
  | none => none

/-- Line 40: `Date.now() + '-' + Math.round(Math.random() * 1E9) + ext`. -/
def fallbackName (env : Env) (ext : JSString) : JSString :=
  numberToString env.now ++ [CHAR_HYPHEN] ++ numberToString (randomComponent env.random) ++ ext

/-- The resolver `storage.filename`: the name handed to the callback. -/
def filename (body : Option Body) (file : FilePart) (env : Env) : JSString :=
  let ext := extname file.originalname
  match identifierName body ext with
  | some name => name
  | none => fallbackName env ext

/-! ## Responses -/

/-- JSON values as the handlers build them. -/
inductive Json where
  | str (s : JSString)
  | num (n : Nat)
  | arr (items : List Json)
  | obj (fields : List (String × Json))

/-- Body of an HTTP response. -/
inductive ResBody where
  | json (j : Json)
  | file (content : Bytes)
  | html
  | empty

/-- An HTTP response: status code and body. -/
structure Response where
  status : Nat
  body : ResBody

/-- The template literal of lines 61 and 77, with the protocol, host and file name as given. -/
def fullUrl (protocol host name : JSString) : JSString :=
  protocol ++ js "://" ++ host ++ js "/uploads/" ++ name

/-! ## Upload directory and `upload.single('file')` -/

/-- The upload directory: a finite map from file name to contents. -/
abbrev Dir := AList (fun _ : JSString => Bytes)

/-- The entry names `fs.readdirSync(uploadsDir)` returns for a readable
directory.  Node leaves their order to the file system; the model lists the
entry created last first, and no property below depends on that choice beyond
the two-element listings it evaluates. -/
def readdir (dir : Dir) : List JSString :=
  dir.keys

/-- Writing a file into the upload directory creates it or replaces its contents. -/
def writeFile (dir : Dir) (name : JSString) (content : Bytes) : Dir :=
  dir.insert name content

/-- Longest file name, in bytes, of a POSIX file system. -/
def NAME_MAX : Nat := 255

/-- Number of bytes of the UTF-8 encoding of a JavaScript string, which is how
the name reaches the file system: a surrogate pair takes four bytes, a lone
surrogate the three bytes of the replacement character. -/
def utf8Length : JSString → Nat
  | [] => 0
  | [c] => if c < 128 then 1 else if c < 2048 then 2 else 3
  | c :: d :: rest =>
    if c < 128 then 1 + utf8Length (d :: rest)
    else if c < 2048 then 2 + utf8Length (d :: rest)
    else if 55296 ≤ c ∧ c < 56320 ∧ 56320 ≤ d ∧ d < 57344 then 4 + utf8Length rest
    else 3 + utf8Length (d :: rest)

/-- Whether `fs.createWriteStream(path.join(uploadsDir, name))` can open a
file: not for the names `.` and `..`, which are directories (`EISDIR`), not
for a name with a NUL, and not for a name longer than `NAME_MAX` bytes
(`ENAMETOOLONG`).  Faults of the medium (no space, no permission) are outside
the model. -/
def storable (name : JSString) : Bool :=
  name ≠ js "." && name ≠ js ".." && !(name.contains 0) && utf8Length name ≤ NAME_MAX

/-- The object `req.file` set by the upload middleware. -/
structure MulterFile where
  filename : JSString
deriving DecidableEq, Repr

/-- A `POST /upload` request as the route sees it: scheme, `Host` header,
`req.body` as it is when the file part arrives, and the file part of the
request, if any (requests with several file parts are not modelled). -/
structure UploadRequest where
  protocol : JSString
  host : JSString
  body : Option Body
  file : Option FilePart

/-- The middleware `upload.single('file')` over disk storage (lines 17-45).
The outer `none` is an error handed to `next`, the inner `none` is `req.file`
left undefined.  A file part without a filename is skipped; a file part under
a field other than `file` is an error (unexpected field); otherwise the
resolver names the file and it is written to `destination/filename`, and a
failed write is an error that leaves the directory as it was. -/
def uploadSingle (env : Env) (dir : Dir) (req : UploadRequest) :
    Dir × Option (Option MulterFile) :=
  match req.file with
  | none => (dir, some none)
  | some f =>
    if f.originalname = [] then (dir, some none)
    else if f.fieldname ≠ js "file" then (dir, none)
    else
      let name := filename req.body f env
      if storable name then (writeFile dir name f.content, some (some { filename := name }))
      else (dir, none)

/-- The handler of `POST /upload` (lines 50-66). -/
def uploadHandler (protocol host : JSString) (file : Option MulterFile) : Response :=
  match file with
  | none => { status := 400, body := .json (.obj [("error", .str (js "No file uploaded"))]) }
  | some f =>
    { status := 200,
      body := .json (.obj [("url", .str (fullUrl protocol host f.filename)),
                           ("filename", .str f.filename)]) }

/-- The answer of the default error handler of Express to an error handed to
`next`: status `500` with an HTML page. -/
def defaultErrorResponse : Response :=
  { status := 500, body := .html }

/-- The route `POST /upload`: middleware, then handler; an error of the
middleware skips the handler and goes to the default error handler, as
`app.js` registers none of its own. -/
def postUpload (env : Env) (dir : Dir) (req : UploadRequest) : Dir × Response :=
  match uploadSingle env dir req with
  | (d, some file) => (d, uploadHandler req.protocol req.host file)
  | (d, none) => (d, defaultErrorResponse)

/-! ## Listing and routing -/

/-- The handler of `GET /uploads/list` (lines 69-84); `files` is the outcome
of `fs.readdirSync(uploadsDir)`, `none` when it throws. -/
def listHandler (protocol host : JSString) (files : Option (List JSString)) : Response :=
  match files with
  | some fs =>
    let list := fs.map (fun f => Json.obj [("filename", .str f), ("url", .str (fullUrl protocol host f))])
    { status := 200, body := .json (.obj [("count", .num list.length), ("files", .arr list)]) }
  | none => { status := 500, body := .json (.obj [("error", .str (js "Failed to list uploads"))]) }

/-- Request methods the routes distinguish. -/
inductive Method where
  | GET
  | POST
  | OTHER
deriving DecidableEq, Repr

/-- A request as the router sees it. -/
structure Request where
  method : Method
  path : JSString
  upload : UploadRequest

/-- The middleware `express.static(uploadsDir)` for the path left after the
mount point, for a path of one plain segment (no `%` escape): a `GET` for an
existing file that is not a dotfile is answered with the file, anything else
is passed on to the next route (`none`). -/
def serveStatic (dir : Dir) (method : Method) (rest : JSString) : Option Response :=
  match method, rest with
  | .GET, 47 :: name =>
    if name = [] ∨ CHAR_FORWARD_SLASH ∈ name ∨ name.head? = some CHAR_DOT then none
    else
      match dir.lookup name with
      | some content => some { status := 200, body := .file content }
      | none => none
  | _, _ => none

/-- The path left after the mount point `/uploads`, when the request path lies under it. -/
def stripMount (path : JSString) : Option JSString :=
  if path = js "/uploads" then some []
  else if path.take 9 = js "/uploads/" then some (path.drop 8)
  else none

/-- The application: the routes of `app.js` tried in the order in which they
are registered (static files on line 48, upload on line 50, listing on
line 69, index on line 87, favicon on line 104). -/
def app (env : Env) (dir : Dir) (req : Request) : Dir × Response :=
  match (stripMount req.path).bind (serveStatic dir req.method) with
  | some res => (dir, res)
  | none =>
    if req.method = .POST ∧ req.path = js "/upload" then postUpload env dir req.upload
    else if req.method = .GET ∧ req.path = js "/uploads/list" then
      (dir, listHandler req.upload.protocol req.upload.host (some (readdir dir)))
    else if req.method = .GET ∧ req.path = js "/" then (dir, { status := 200, body := .html })
    else if req.method = .GET ∧ req.path = js "/favicon.ico" then (dir, { status := 204, body := .empty })
    else (dir, { status := 404, body := .html })

/-! # Properties -/

/-! ## Sanitizer lemmas -/

set_option maxRecDepth 100000 in
theorem specAllowedChars_eq : specAllowedChars =
    [97, 98, 99, 100, 101, 102, 103, 104, 105, 106, 107, 108, 109, 110, 111, 112, 113, 114,
     115, 116, 117, 118, 119, 120, 121, 122, 65, 66, 67, 68, 69, 70, 71, 72, 73, 74, 75, 76,
     77, 78, 79, 80, 81, 82, 83, 84, 85, 86, 87, 88, 89, 90, 48, 49, 50, 51, 52, 53, 54, 55,
     56, 57, 45, 95, 46] := by
  rfl

theorem inSafeClass_iff_mem (c : Nat) : inSafeClass c = true ↔ c ∈ specAllowedChars := by
  rw [specAllowedChars_eq]
  simp only [inSafeClass, CHAR_HYPHEN, CHAR_UNDERSCORE, CHAR_DOT, Bool.or_eq_true,
    Bool.and_eq_true, decide_eq_true_eq, beq_iff_eq, List.mem_cons, List.mem_singleton,
    List.not_mem_nil, or_false]
  omega

theorem replaceUnsafe_eq_sanitizeSpec (publicId : JSString) :
    replaceUnsafe publicId = sanitizeSpec publicId := by
  induction publicId with
  | nil => rfl
  | cons c cs ih =>
    have h : replaceUnsafe (c :: cs) =
        (if inSafeClass c then c else CHAR_UNDERSCORE) :: replaceUnsafe cs := rfl
    rw [h, ih, sanitizeSpec]
    by_cases hc : inSafeClass c = true
    · rw [if_pos hc, if_pos ((inSafeClass_iff_mem c).mp hc)]
    · rw [if_neg hc, if_neg (fun hm => hc ((inSafeClass_iff_mem c).mpr hm))]

theorem length_replaceUnsafe (publicId : JSString) :
    (replaceUnsafe publicId).length = publicId.length := by
  simp [replaceUnsafe]

theorem inSafeClass_of_mem_replaceUnsafe (publicId : JSString) (c : Nat)
    (h : c ∈ replaceUnsafe publicId) : inSafeClass c = true := by
  simp only [replaceUnsafe, List.mem_map] at h
  obtain ⟨a, _, ha⟩ := h
  by_cases hc : inSafeClass a = true
  · rw [if_pos hc] at ha
    rw [← ha]; exact hc
  · rw [if_neg hc] at ha
    rw [← ha]; rfl

theorem slash_not_mem_replaceUnsafe (publicId : JSString) :
    CHAR_FORWARD_SLASH ∉ replaceUnsafe publicId := by
  intro h
  have := inSafeClass_of_mem_replaceUnsafe publicId _ h
  simp [inSafeClass, CHAR_FORWARD_SLASH, CHAR_HYPHEN, CHAR_UNDERSCORE, CHAR_DOT] at this

theorem replaceUnsafe_eq_dots (publicId : JSString) (n : Nat) :
    replaceUnsafe publicId = List.replicate n CHAR_DOT ↔ publicId = List.replicate n CHAR_DOT := by
  induction publicId generalizing n with
  | nil => cases n <;> simp [replaceUnsafe, List.replicate]
  | cons c cs ih =>
    cases n with
    | zero => simp [replaceUnsafe]
    | succ n =>
      have h : replaceUnsafe (c :: cs) =
          (if inSafeClass c then c else CHAR_UNDERSCORE) :: replaceUnsafe cs := rfl
      rw [h, List.replicate_succ, List.cons.injEq, List.cons.injEq, ih n]
      by_cases hc : inSafeClass c = true
      · rw [if_pos hc]
      · rw [if_neg hc]
        have hne : c ≠ 46 := by
          intro hd; apply hc; rw [hd]; rfl
        simp [hne, CHAR_UNDERSCORE, CHAR_DOT]

/-! ## `path.extname` never returns a `/` -/

theorem extInv_init (path : JSString) (n : Nat) : ExtInv path n ExtState.init := by
  simp [ExtInv, ExtState.init]

theorem extInv_step (path : JSString) (i : Nat) (s : ExtState)
    (hc : path.getD i 0 ≠ CHAR_FORWARD_SLASH) (h : ExtInv path (i + 1) s) :
    ExtInv path i (extnameStep (path.getD i 0) i s) := by
  obtain ⟨h1, h2, h3, h4⟩ := h
  have key : ∀ j : Nat, i ≤ j → (j : Int) < (i : Int) + 1 → path.getD j 0 ≠ CHAR_FORWARD_SLASH := by
    intro j hj1 hj2
    have : j = i := by omega
    rw [this]; exact hc
  by_cases he : s.endPos = -1
  · have hd := h2 he
    unfold extnameStep
    simp only [he, if_true]
    split_ifs <;> simp_all [ExtInv]
    all_goals omega
  · obtain ⟨h3a, h3b⟩ := h3 he
    have hrange : ∀ j : Nat, i ≤ j → (j : Int) < s.endPos → path.getD j 0 ≠ CHAR_FORWARD_SLASH := by
      intro j hj1 hj2
      by_cases hji : j = i
      · rw [hji]; exact hc
      · exact h3b j (by omega) hj2
    unfold extnameStep
    simp only [he, if_false]
    split_ifs with hdot hsd hpre hsd2
    · refine ⟨h1, fun h => absurd h he, fun _ => ⟨by dsimp only; omega, hrange⟩, fun _ => ?_⟩
      dsimp only; omega
    · refine ⟨h1, h2, fun _ => ⟨by dsimp only; omega, hrange⟩, fun _ => ?_⟩
      have := h4 hsd
      dsimp only; omega
    · refine ⟨h1, h2, fun _ => ⟨by omega, hrange⟩, fun _ => ?_⟩
      have := h4 hsd
      omega
    · refine ⟨h1, h2, fun _ => ⟨by dsimp only; omega, hrange⟩, fun _ => ?_⟩
      have := h4 hsd2
      dsimp only; omega
    · refine ⟨h1, h2, fun _ => ⟨by omega, hrange⟩, fun hd => ?_⟩
      have := h4 hd
      omega

theorem extInv_loop (path : JSString) :
    ∀ (n : Nat) (s : ExtState), ExtInv path n s → ∃ k, ExtInv path k (extnameLoop path n s) := by
  intro n
  induction n with
  | zero => intro s h; exact ⟨0, h⟩
  | succ i ih =>
    intro s h
    unfold extnameLoop
    simp only
    by_cases hc : path.getD i 0 = CHAR_FORWARD_SLASH
    · rw [if_pos hc]
      by_cases hm : s.matchedSlash = true
      · simp only [hm, Bool.not_true, Bool.false_eq_true, if_false]
        apply ih
        obtain ⟨h1, h2, _, _⟩ := h
        have he := h1 hm
        have hd := h2 he
        exact ⟨h1, h2, fun hne => absurd he hne, fun hne => absurd hd hne⟩
      · have hf : s.matchedSlash = false := by simpa using hm
        simp only [hf, Bool.not_false, if_true]
        obtain ⟨_, h2, h3, h4⟩ := h
        exact ⟨i + 1, ⟨fun hx => by simp at hx, h2, h3, h4⟩⟩
    · rw [if_neg hc]
      exact ih _ (extInv_step path i s hc h)

theorem mem_jsSlice (path : JSString) (a b : Nat) (c : Nat)
    (h : c ∈ jsSlice path (a : Int) (b : Int)) :
    ∃ j, a ≤ j ∧ j < b ∧ path.getD j 0 = c := by
  simp only [jsSlice, Int.toNat_ofNat] at h
  obtain ⟨k, hk, rfl⟩ := List.getElem_of_mem h
  simp only [List.length_take, List.length_drop] at hk
  refine ⟨a + k, by omega, by omega, ?_⟩
  rw [List.getElem_take, List.getElem_drop]
  rw [List.getD_eq_getElem?_getD, List.getElem?_eq_getElem (by omega)]
  rfl

theorem slash_not_mem_extname (path : JSString) : CHAR_FORWARD_SLASH ∉ extname path := by
  obtain ⟨k, hk⟩ := extInv_loop path path.length ExtState.init (extInv_init path _)
  unfold extname
  simp only
  split_ifs with hcond
  · simp
  · obtain ⟨_, _, h3, h4⟩ := hk
    have hd : (extnameLoop path path.length ExtState.init).startDot ≠ -1 := fun h => hcond (Or.inl h)
    have he : (extnameLoop path path.length ExtState.init).endPos ≠ -1 :=
      fun h => hcond (Or.inr (Or.inl h))
    obtain ⟨h3a, h3b⟩ := h3 he
    obtain ⟨h4a, h4b⟩ := h4 hd
    generalize (extnameLoop path path.length ExtState.init).startDot = d at *
    generalize (extnameLoop path path.length ExtState.init).endPos = e at *
    obtain ⟨a, rfl⟩ := Int.eq_ofNat_of_zero_le (show 0 ≤ d by omega)
    obtain ⟨b, rfl⟩ := Int.eq_ofNat_of_zero_le (show 0 ≤ e by omega)
    intro hmem
    obtain ⟨j, hj1, hj2, hj3⟩ := mem_jsSlice path a b _ hmem
    exact h3b j (by omega) (by omega) hj3

/-! ## The resolver on an identifier string -/

theorem identifierName_str (publicId ext : JSString) (h : publicId ≠ []) :
    identifierName (some { publicId := .str publicId }) ext = some (replaceUnsafe publicId ++ ext) := by
  cases publicId with
  | nil => exact absurd rfl h
  | cons c cs => rfl

theorem filename_str (publicId : JSString) (file : FilePart) (env : Env) (h : publicId ≠ []) :
    filename (some { publicId := .str publicId }) file env =
      replaceUnsafe publicId ++ extname file.originalname := by
  simp only [filename, identifierName_str _ _ h]

/-- C1. With a non-empty identifier string `id`, the resolved filename is the
sanitized identifier (every character other than an ASCII letter, an ASCII
digit, `-`, `_`, `.` replaced by `_`, the others unchanged) followed by the
extension `path.extname` gives for the original filename, unaltered. -/
theorem C1_identifier_path (id : JSString) (file : FilePart) (env : Env) (h : id ≠ []) :
    filename (some { publicId := .str id }) file env =
      sanitizeSpec id ++ extname file.originalname := by
  rw [filename_str id file env h, replaceUnsafe_eq_sanitizeSpec]

/-- C1 at identifier `user-42` and file `photo.PNG`: the name is `user-42.PNG`. -/
theorem C1_identifier_path_witness :
    js "user-42" ≠ [] ∧
    sanitizeSpec (js "user-42") ++ extname (js "photo.PNG") = js "user-42.PNG" ∧
    filename (some { publicId := .str (js "user-42") })
        { originalname := js "photo.PNG", content := [] }
        { now := 1700000000000, random := { m := 1, e := 1 } } = js "user-42.PNG" := by
  have hne : js "user-42" ≠ [] := by decide
  have hval : sanitizeSpec (js "user-42") ++ extname (js "photo.PNG") = js "user-42.PNG" := by
    decide
  exact ⟨hne, hval, (C1_identifier_path (js "user-42")
    { originalname := js "photo.PNG", content := [] }
    { now := 1700000000000, random := { m := 1, e := 1 } } hne).trans hval⟩

/-- C2 as stated fails: identifier `..` with the extensionless file `README`
resolves to `..`, which is not a child of the upload directory. -/
theorem C2_dotdot_counterexample :
    js ".." ≠ [] ∧
    filename (some { publicId := .str (js "..") })
        { originalname := js "README", content := [] }
        { now := 1700000000000, random := { m := 1, e := 1 } } = js ".." := by
  decide

/-- C2, amended. With a non-empty identifier string the resolved filename
contains no `/`; it is `.` or `..` exactly when the identifier is `.` and the
extension is empty or `.`, or the identifier is `..` and the extension is
empty. -/
theorem C2_containment (id : JSString) (file : FilePart) (env : Env) (h : id ≠ []) :
    CHAR_FORWARD_SLASH ∉ filename (some { publicId := .str id }) file env ∧
    ((filename (some { publicId := .str id }) file env = js "." ∨
      filename (some { publicId := .str id }) file env = js "..") ↔
     ((id = js "." ∧ (extname file.originalname = [] ∨ extname file.originalname = js ".")) ∨
      (id = js ".." ∧ extname file.originalname = []))) := by
  rw [filename_str id file env h]
  refine ⟨?_, ?_⟩
  · intro hm
    rcases List.mem_append.mp hm with hm | hm
    · exact slash_not_mem_replaceUnsafe id hm
    · exact slash_not_mem_extname _ hm
  · have h1 : js "." = List.replicate 1 CHAR_DOT := by decide
    have h2 : js ".." = List.replicate 2 CHAR_DOT := by decide
    have e1 := replaceUnsafe_eq_dots id 1
    have e2 := replaceUnsafe_eq_dots id 2
    have hlen := length_replaceUnsafe id
    have hpos : 0 < id.length := List.length_pos.mpr h
    rw [h1, h2, ← e1, ← e2]
    generalize replaceUnsafe id = stem at *
    generalize extname file.originalname = ext
    match stem, ext with
    | [], _ => simp at hlen; omega
    | [a], [] => simp [List.replicate]
    | [a], [b] => simp [List.replicate]
    | [a], _ :: _ :: _ => simp [List.replicate]
    | [a, b], [] => simp [List.replicate]
    | [a, b], _ :: _ => simp [List.replicate]
    | _ :: _ :: _ :: _, _ => simp [List.replicate]

/-- C2 at identifier `../../etc/passwd` and file `x.txt`: the name is
`.._.._etc_passwd.txt`, without `/`. -/
theorem C2_containment_witness :
    js "../../etc/passwd" ≠ [] ∧
    filename (some { publicId := .str (js "../../etc/passwd") })
        { originalname := js "x.txt", content := [] }
        { now := 1700000000000, random := { m := 1, e := 1 } } = js ".._.._etc_passwd.txt" ∧
    CHAR_FORWARD_SLASH ∉ filename (some { publicId := .str (js "../../etc/passwd") })
        { originalname := js "x.txt", content := [] }
        { now := 1700000000000, random := { m := 1, e := 1 } } :=
  ⟨by decide, by decide, (C2_containment (js "../../etc/passwd")
    { originalname := js "x.txt", content := [] }
    { now := 1700000000000, random := { m := 1, e := 1 } } (by decide)).1⟩

/-- C9 as stated fails: identifier `u` with file `a.p g` resolves to `u.p g`,
whose extension holds a space, a character outside the sanitized set. -/
theorem C9_extension_counterexample :
    js "u" ≠ [] ∧
    filename (some { publicId := .str (js "u") })
        { originalname := js "a.p g", content := [] }
        { now := 1700000000000, random := { m := 1, e := 1 } } = js "u.p g" ∧
    32 ∈ js "u.p g" ∧ 32 ∉ specAllowedChars := by
  decide

/-- C9, amended. With a non-empty identifier string, the resolved filename is
a stem of as many characters as the identifier, all of them in the sanitized
set, followed by the extension of the original filename as it is; the whole
name lies in the sanitized set exactly when the extension does; the stem is
the sanitized identifier. -/
theorem C9_charset (id : JSString) (file : FilePart) (env : Env) (h : id ≠ []) :
    (filename (some { publicId := .str id }) file env).drop id.length
      = extname file.originalname ∧
    (∀ c ∈ (filename (some { publicId := .str id }) file env).take id.length,
      c ∈ specAllowedChars) ∧
    ((∀ c ∈ filename (some { publicId := .str id }) file env, c ∈ specAllowedChars) ↔
     (∀ c ∈ extname file.originalname, c ∈ specAllowedChars)) ∧
    (filename (some { publicId := .str id }) file env).take id.length = sanitizeSpec id := by
  rw [filename_str id file env h]
  have hlen := length_replaceUnsafe id
  have hstem : ∀ c ∈ replaceUnsafe id, c ∈ specAllowedChars := fun c hc =>
    (inSafeClass_iff_mem c).mp (inSafeClass_of_mem_replaceUnsafe id c hc)
  refine ⟨?_, ?_, ?_, by rw [← hlen, List.take_left, replaceUnsafe_eq_sanitizeSpec]⟩
  · rw [← hlen, List.drop_left]
  · rw [← hlen, List.take_left]
    exact hstem
  · constructor
    · intro hall c hc
      exact hall c (List.mem_append_right _ hc)
    · intro hext c hc
      rcases List.mem_append.mp hc with hc | hc
      · exact hstem c hc
      · exact hext c hc

/-- C9 at identifier `user-42` and file `photo.PNG`. -/
theorem C9_charset_witness :
    js "user-42" ≠ [] ∧
    (∀ c ∈ (filename (some { publicId := .str (js "user-42") })
        { originalname := js "photo.PNG", content := [] }
        { now := 1700000000000, random := { m := 1, e := 1 } }).take (js "user-42").length,
      c ∈ specAllowedChars) :=
  ⟨by decide, (C9_charset (js "user-42") { originalname := js "photo.PNG", content := [] }
    { now := 1700000000000, random := { m := 1, e := 1 } } (by decide)).2.1⟩

/-- C4 as stated fails: a `publicId` that is an object without prototype (as
the field `publicId[x]=1` produces) is present and not the empty string, yet
`String(publicId)` throws, the exception is caught on lines 36-38 and the
fallback branch is taken. -/
theorem C4_conversion_throws_counterexample :
    ((some { publicId := .other true none } : Option Body) ≠ none ∧
     (some { publicId := .other true none } : Option Body) ≠ some { publicId := .undefined } ∧
     (some { publicId := .other true none } : Option Body) ≠ some { publicId := .str [] }) ∧
    identifierName (some { publicId := .other true none }) (extname (js "a.png")) = none ∧
    filename (some { publicId := .other true none })
        { originalname := js "a.png", content := [] }
        { now := 1700000000000, random := { m := 1, e := 1 } }
      = js "1700000000000-500000000.png" := by
  decide

/-- C4, amended. The fallback branch is taken exactly when the request has no
body, `publicId` is absent or the empty string, or `publicId` is another value
that is falsy, whose conversion to a string throws, or whose conversion gives
the empty string; on the fallback branch the name is the decimal clock
reading, `-`, the decimal random component and the extension; a non-empty
identifier string, and a truthy value converting to a non-empty string, take
the identifier branch with that string. -/
theorem C4_fallback_branch (body : Option Body) (file : FilePart) (env : Env) :
    (identifierName body (extname file.originalname) = none ↔
      (body = none ∨ body = some { publicId := .undefined } ∨
        body = some { publicId := .str [] } ∨
        ∃ t r, body = some { publicId := .other t r } ∧
          (t = false ∨ r = none ∨ r = some []))) ∧
    (identifierName body (extname file.originalname) = none →
      filename body file env =
        numberToString env.now ++ js "-" ++ numberToString (randomComponent env.random)
          ++ extname file.originalname) ∧
    (∀ id, id ≠ [] → body = some { publicId := .str id } →
      identifierName body (extname file.originalname)
        = some (replaceUnsafe id ++ extname file.originalname) ∧
      filename body file env = replaceUnsafe id ++ extname file.originalname) ∧
    (∀ s, s ≠ [] → body = some { publicId := .other true (some s) } →
      identifierName body (extname file.originalname)
        = some (replaceUnsafe s ++ extname file.originalname) ∧
      filename body file env = replaceUnsafe s ++ extname file.originalname) := by
  refine ⟨?_, ?_, ?_, ?_⟩
  · cases body with
    | none => simp [identifierName, readPublicId]
    | some b =>
      obtain ⟨v⟩ := b
      cases v with
      | undefined => simp [identifierName, readPublicId, JSValue.toBoolean]
      | str id =>
        cases id with
        | nil => simp [identifierName, readPublicId, JSValue.toBoolean]
        | cons c cs => simp [identifierName_str]
      | other t r =>
        cases t with
        | false => simp [identifierName, readPublicId, JSValue.toBoolean]
        | true =>
          cases r with
          | none => simp [identifierName, readPublicId, JSValue.toBoolean, JSValue.toJSString]
          | some s =>
            cases s with
            | nil => simp [identifierName, readPublicId, JSValue.toBoolean, JSValue.toJSString]
            | cons c cs =>
              simp [identifierName, readPublicId, JSValue.toBoolean, JSValue.toJSString]
  · intro hnone
    simp only [filename, hnone, fallbackName]
    rfl
  · intro id hid hb
    subst hb
    exact ⟨identifierName_str id _ hid, filename_str id file env hid⟩
  · intro s hs hb
    subst hb
    have hname : identifierName (some { publicId := .other true (some s) })
        (extname file.originalname) = some (replaceUnsafe s ++ extname file.originalname) := by
      simp [identifierName, readPublicId, JSValue.toBoolean, JSValue.toJSString, hs]
    exact ⟨hname, by simp only [filename, hname]⟩

/-! ## Range of the random component -/

theorem bitLengthAux_le (k : Nat) :
    ∀ fuel n, n ≤ fuel → (bitLengthAux fuel n ≤ k ↔ n < 2 ^ k) := by
  induction k with
  | zero =>
    intro fuel n h
    cases fuel with
    | zero =>
      have h0 : n = 0 := by omega
      subst h0
      simp [bitLengthAux]
    | succ f =>
      by_cases hn : n = 0
      · simp [bitLengthAux, hn]
      · have hpos : ¬ n < 1 := by omega
        simp [bitLengthAux, hn, hpos]
  | succ k ih =>
    intro fuel n h
    cases fuel with
    | zero =>
      have h0 : n = 0 := by omega
      subst h0
      simp [bitLengthAux]
    | succ f =>
      by_cases hn : n = 0
      · simp [bitLengthAux, hn]
      · simp only [bitLengthAux, hn, if_false, Nat.add_le_add_iff_right]
        rw [ih f (n / 2) (by omega), pow_succ]
        omega

theorem bitLength_le (n k : Nat) : bitLength n ≤ k ↔ n < 2 ^ k :=
  bitLengthAux_le k n n (le_refl n)

theorem roundToDouble_le (n e B : Nat) (h : n < B * 2 ^ e) (hB : B < 2 ^ 53) :
    (roundToDouble n e).m ≤ B * 2 ^ (roundToDouble n e).e := by
  unfold roundToDouble
  simp only
  by_cases h53 : bitLength n ≤ 53
  · rw [if_pos h53]
    exact le_of_lt h
  · rw [if_neg h53]
    have hlen : bitLength n ≤ 53 + e := by
      rw [bitLength_le]
      calc n < B * 2 ^ e := h
        _ ≤ 2 ^ 53 * 2 ^ e := Nat.mul_le_mul_right _ (le_of_lt hB)
        _ = 2 ^ (53 + e) := by rw [pow_add]
    have hs : bitLength n - 53 ≤ e := by omega
    rw [if_pos hs]
    generalize bitLength n - 53 = s at hs ⊢
    have hq : n / 2 ^ s < B * 2 ^ (e - s) := by
      rw [Nat.div_lt_iff_lt_mul (by positivity)]
      calc n < B * 2 ^ e := h
        _ = B * 2 ^ (e - s) * 2 ^ s := by
            rw [mul_assoc, ← pow_add, Nat.sub_add_cancel hs]
    dsimp only
    split_ifs
    · exact hq
    · exact le_of_lt hq

theorem mathRound_le (y : Dbl) (B : Nat) (h : y.m ≤ B * 2 ^ y.e) : mathRound y ≤ B := by
  unfold mathRound
  have hlt : 2 * y.m + 2 ^ y.e < (B + 1) * 2 ^ (y.e + 1) := by
    have hpos : 0 < 2 ^ y.e := by positivity
    rw [pow_succ]
    nlinarith
  exact Nat.lt_succ_iff.mp ((Nat.div_lt_iff_lt_mul (by positivity)).mpr hlt)

/-- C5 as stated fails: for `Math.random()` equal to `1 - 2^-52`, below `1`,
the random component is `1000000000`, above `999999999`. -/
theorem C5_round_counterexample :
    (2 ^ 52 - 1 < 2 ^ 52 ∧ 2 ^ 52 - 1 < 2 ^ 53 ∧ 52 ≤ 1074) ∧
    randomComponent { m := 2 ^ 52 - 1, e := 52 } = 1000000000 ∧
    ¬ (randomComponent { m := 2 ^ 52 - 1, e := 52 } ≤ 999999999) := by
  decide

/-- C5, amended. For every value `x = m / 2^e` below `1` that `Math.random()`
can return, the random component `Math.round(x * 1E9)` is an integer between
`0` and `1000000000` inclusive. -/
theorem C5_random_range (x : Dbl) (h : x.m < 2 ^ x.e) :
    0 ≤ randomComponent x ∧ randomComponent x ≤ 1000000000 := by
  refine ⟨Nat.zero_le _, ?_⟩
  unfold randomComponent Dbl.mulE9
  apply mathRound_le
  apply roundToDouble_le
  · calc x.m * 1000000000 < 2 ^ x.e * 1000000000 := Nat.mul_lt_mul_of_pos_right h (by norm_num)
      _ = 1000000000 * 2 ^ x.e := Nat.mul_comm _ _
  · norm_num

/-- C5 at `Math.random()` equal to `1/2`: the random component is `500000000`. -/
theorem C5_random_range_witness :
    (1 : Nat) < 2 ^ 1 ∧ randomComponent { m := 1, e := 1 } = 500000000 ∧
    randomComponent { m := 1, e := 1 } ≤ 1000000000 :=
  ⟨by decide, by decide, (C5_random_range { m := 1, e := 1 } (by decide)).2⟩

/-! ## Uploads and the directory -/

theorem postUpload_stored (env : Env) (dir : Dir) (p h : JSString) (body : Option Body)
    (f : FilePart) (hname : f.originalname ≠ []) (hfield : f.fieldname = js "file")
    (hst : storable (filename body f env) = true) :
    postUpload env dir { protocol := p, host := h, body := body, file := some f }
      = (writeFile dir (filename body f env) f.content,
         uploadHandler p h (some { filename := filename body f env })) := by
  simp [postUpload, uploadSingle, hname, hfield, hst]

theorem postUpload_of_status_200 (env : Env) (dir : Dir) (p h : JSString) (body : Option Body)
    (f : FilePart)
    (h200 : (postUpload env dir { protocol := p, host := h, body := body, file := some f }).2.status
      = 200) :
    (postUpload env dir { protocol := p, host := h, body := body, file := some f }).1
      = writeFile dir (filename body f env) f.content := by
  by_cases hname : f.originalname = []
  · simp [postUpload, uploadSingle, hname, uploadHandler] at h200
  · by_cases hfield : f.fieldname = js "file"
    · by_cases hst : storable (filename body f env) = true
      · rw [postUpload_stored env dir p h body f hname hfield hst]
      · simp [postUpload, uploadSingle, hname, hfield, hst, defaultErrorResponse] at h200
    · simp [postUpload, uploadSingle, hname, hfield, defaultErrorResponse] at h200

theorem lookup_writeFile_self (dir : Dir) (name : JSString) (content : Bytes) :
    (writeFile dir name content).lookup name = some content :=
  AList.lookup_insert dir

theorem lookup_writeFile_ne (dir : Dir) (name other : JSString) (content : Bytes)
    (h : other ≠ name) : (writeFile dir name content).lookup other = dir.lookup other :=
  AList.lookup_insert_ne h

theorem count_eq_one_of_nodup (l : List JSString) (a : JSString) (hn : l.Nodup) (ha : a ∈ l) :
    l.count a = 1 := by
  induction l with
  | nil => simp at ha
  | cons b l ih =>
    rw [List.nodup_cons] at hn
    rw [List.count_cons]
    by_cases hba : b = a
    · subst hba
      simp [List.count_eq_zero_of_not_mem hn.1]
    · have hmem : a ∈ l := by
        rcases List.mem_cons.mp ha with h | h
        · exact absurd h.symm hba
        · exact h
      simp [ih hn.2 hmem, hba]

theorem count_readdir_writeFile (dir : Dir) (name : JSString) (content : Bytes) :
    (readdir (writeFile dir name content)).count name = 1 := by
  apply count_eq_one_of_nodup _ _ (AList.keys_nodup _)
  rw [← AList.mem_keys, writeFile, AList.mem_insert]
  exact Or.inl rfl

/-- C3 fails on the code: two uploads under identifier `u1`, the first of
`a.png`, the second of `a.jpg`, leave two files for that identifier in the
directory, and the first still holds the contents of the first upload, where
the comment on lines 29-31 promises that the previous file is overwritten. -/
theorem C3_stale_file_remains :
    js "u1" ≠ [] ∧
    readdir (postUpload { now := 2, random := { m := 1, e := 1 } }
      (postUpload { now := 1, random := { m := 1, e := 1 } } ∅
        { protocol := js "http", host := js "localhost:3000",
          body := some { publicId := .str (js "u1") },
          file := some { originalname := js "a.png", content := [1] } }).1
        { protocol := js "http", host := js "localhost:3000",
          body := some { publicId := .str (js "u1") },
          file := some { originalname := js "a.jpg", content := [2] } }).1
      = [js "u1.jpg", js "u1.png"] ∧
    (postUpload { now := 2, random := { m := 1, e := 1 } }
      (postUpload { now := 1, random := { m := 1, e := 1 } } ∅
        { protocol := js "http", host := js "localhost:3000",
          body := some { publicId := .str (js "u1") },
          file := some { originalname := js "a.png", content := [1] } }).1
        { protocol := js "http", host := js "localhost:3000",
          body := some { publicId := .str (js "u1") },
          file := some { originalname := js "a.jpg", content := [2] } }).1.lookup (js "u1.png")
      = some [1] := by
  decide

/-- Two successive uploads that carry the same non-empty identifier, whose
original filenames have the same extension and which are both answered `200`,
resolve to one filename; after the second upload the directory holds exactly
one entry of that name, its contents are those of the second upload, and every
other entry is as it was before the first upload. -/
theorem last_write_wins_same_extension (dir : Dir) (id : JSString) (f1 f2 : FilePart)
    (env1 env2 : Env) (p1 h1 p2 h2 : JSString) (hid : id ≠ [])
    (hext : extname f1.originalname = extname f2.originalname)
    (hok1 : (postUpload env1 dir
      { protocol := p1, host := h1, body := some { publicId := .str id },
        file := some f1 }).2.status = 200)
    (hok2 : (postUpload env2
      (postUpload env1 dir
        { protocol := p1, host := h1, body := some { publicId := .str id }, file := some f1 }).1
      { protocol := p2, host := h2, body := some { publicId := .str id },
        file := some f2 }).2.status = 200) :
    filename (some { publicId := .str id }) f1 env1
      = filename (some { publicId := .str id }) f2 env2 ∧
    (postUpload env2
      (postUpload env1 dir
        { protocol := p1, host := h1, body := some { publicId := .str id }, file := some f1 }).1
      { protocol := p2, host := h2, body := some { publicId := .str id }, file := some f2 }).1.lookup
        (filename (some { publicId := .str id }) f2 env2) = some f2.content ∧
    (readdir (postUpload env2
      (postUpload env1 dir
        { protocol := p1, host := h1, body := some { publicId := .str id }, file := some f1 }).1
      { protocol := p2, host := h2, body := some { publicId := .str id }, file := some f2 }).1).count
        (filename (some { publicId := .str id }) f2 env2) = 1 ∧
    (∀ other, other ≠ filename (some { publicId := .str id }) f2 env2 →
      (postUpload env2
        (postUpload env1 dir
          { protocol := p1, host := h1, body := some { publicId := .str id }, file := some f1 }).1
        { protocol := p2, host := h2, body := some { publicId := .str id }, file := some f2 }).1.lookup
          other = dir.lookup other) := by
  have hname : filename (some { publicId := .str id }) f1 env1
      = filename (some { publicId := .str id }) f2 env2 := by
    rw [filename_str id f1 env1 hid, filename_str id f2 env2 hid, hext]
  rw [postUpload_of_status_200 _ _ _ _ _ _ hok2, postUpload_of_status_200 _ _ _ _ _ _ hok1]
  refine ⟨hname, lookup_writeFile_self _ _ _, count_readdir_writeFile _ _ _, ?_⟩
  intro other hne
  rw [lookup_writeFile_ne _ _ _ _ hne, hname, lookup_writeFile_ne _ _ _ _ hne]

/-- C10. The sanitizer keeps the number of code units, so only the empty
identifier has an empty stem; the distinct non-empty identifiers `a/b` and
`a_b` resolve to the same filename for every original filename, and an upload
under the second that is answered `200` overwrites the file stored under the
first. -/
theorem C10_length_preserving_not_injective :
    (∀ id, (replaceUnsafe id).length = id.length) ∧
    (∀ id, replaceUnsafe id = [] ↔ id = []) ∧
    (js "a/b" ≠ js "a_b" ∧ js "a/b" ≠ [] ∧ js "a_b" ≠ []) ∧
    (∀ (orig : JSString) (c1 c2 : Bytes) (env1 env2 : Env),
      filename (some { publicId := .str (js "a/b") }) { originalname := orig, content := c1 } env1
        = filename (some { publicId := .str (js "a_b") })
            { originalname := orig, content := c2 } env2) ∧
    (∀ (dir : Dir) (orig : JSString) (c1 c2 : Bytes) (env1 env2 : Env) (p1 h1 p2 h2 : JSString),
      (postUpload env2
        (postUpload env1 dir
          { protocol := p1, host := h1, body := some { publicId := .str (js "a/b") },
            file := some { originalname := orig, content := c1 } }).1
        { protocol := p2, host := h2, body := some { publicId := .str (js "a_b") },
          file := some { originalname := orig, content := c2 } }).2.status = 200 →
      (postUpload env2
        (postUpload env1 dir
          { protocol := p1, host := h1, body := some { publicId := .str (js "a/b") },
            file := some { originalname := orig, content := c1 } }).1
        { protocol := p2, host := h2, body := some { publicId := .str (js "a_b") },
          file := some { originalname := orig, content := c2 } }).1.lookup
          (filename (some { publicId := .str (js "a/b") })
            { originalname := orig, content := c1 } env1) = some c2) := by
  have hab : js "a/b" ≠ [] := by decide
  have hab2 : js "a_b" ≠ [] := by decide
  have hsan : replaceUnsafe (js "a/b") = replaceUnsafe (js "a_b") := by decide
  have hsame : ∀ (orig : JSString) (c1 c2 : Bytes) (env1 env2 : Env),
      filename (some { publicId := .str (js "a/b") }) { originalname := orig, content := c1 } env1
        = filename (some { publicId := .str (js "a_b") })
            { originalname := orig, content := c2 } env2 := by
    intro orig c1 c2 env1 env2
    rw [filename_str _ _ env1 hab, filename_str _ _ env2 hab2, hsan]
  refine ⟨length_replaceUnsafe, ?_, ⟨by decide, hab, hab2⟩, hsame, ?_⟩
  · intro id
    rw [← List.length_eq_zero, length_replaceUnsafe, List.length_eq_zero]
  · intro dir orig c1 c2 env1 env2 p1 h1 p2 h2 hok
    rw [postUpload_of_status_200 _ _ _ _ _ _ hok, hsame orig c1 c2 env1 env2]
    exact lookup_writeFile_self _ _ _

/-- C10 at the original filename `x.png` and the empty directory: the upload
under `a_b` is answered `200` and `a_b.png` then holds its bytes. -/
theorem C10_length_preserving_not_injective_witness :
    (postUpload { now := 2, random := { m := 1, e := 1 } }
      (postUpload { now := 1, random := { m := 1, e := 1 } } ∅
        { protocol := js "http", host := js "localhost:3000",
          body := some { publicId := .str (js "a/b") },
          file := some { originalname := js "x.png", content := [1] } }).1
      { protocol := js "http", host := js "localhost:3000",
        body := some { publicId := .str (js "a_b") },
        file := some { originalname := js "x.png", content := [2] } }).2.status = 200 ∧
    (postUpload { now := 2, random := { m := 1, e := 1 } }
      (postUpload { now := 1, random := { m := 1, e := 1 } } ∅
        { protocol := js "http", host := js "localhost:3000",
          body := some { publicId := .str (js "a/b") },
          file := some { originalname := js "x.png", content := [1] } }).1
      { protocol := js "http", host := js "localhost:3000",
        body := some { publicId := .str (js "a_b") },
        file := some { originalname := js "x.png", content := [2] } }).1.lookup
        (filename (some { publicId := .str (js "a/b") })
          { originalname := js "x.png", content := [1] }
          { now := 1, random := { m := 1, e := 1 } }) = some [2] :=
  ⟨by decide, C10_length_preserving_not_injective.2.2.2.2 ∅ (js "x.png") [1] [2]
    { now := 1, random := { m := 1, e := 1 } } { now := 2, random := { m := 1, e := 1 } }
    (js "http") (js "localhost:3000") (js "http") (js "localhost:3000") (by decide)⟩

/-! ## Handlers and routing -/

/-- C6 as stated fails: the request with identifier `..` and the
extensionless file `README` has a file part, yet the name `..` cannot be
written, the error skips the handler, the answer is `500` and not `200`, and
nothing is stored. -/
theorem C6_write_error_counterexample :
    (postUpload { now := 1, random := { m := 1, e := 1 } } ∅
      { protocol := js "http", host := js "localhost:3000",
        body := some { publicId := .str (js "..") },
        file := some { originalname := js "README", content := [1] } }).2.status = 500 ∧
    readdir (postUpload { now := 1, random := { m := 1, e := 1 } } ∅
      { protocol := js "http", host := js "localhost:3000",
        body := some { publicId := .str (js "..") },
        file := some { originalname := js "README", content := [1] } }).1 = [] := by
  decide

/-- C6, amended. The upload route answers `400` with
`{"error": "No file uploaded"}` exactly when the request has no file part or
one without a filename, and writes nothing then; it answers `500` through the
default error handler, without running the handler and without writing,
exactly when a named file part is under a field other than `file` or the
resolved name cannot be written; otherwise it writes the file and answers
`200` with `url` and `filename`, where `filename` is the resolved storage
filename and `url` is scheme, `://`, host, `/uploads/` and the filename. -/
theorem C6_upload_response (env : Env) (dir : Dir) (req : UploadRequest) :
    postUpload env dir req =
      (match req.file with
       | none =>
         (dir, { status := 400, body := .json (.obj [("error", .str (js "No file uploaded"))]) })
       | some f =>
         if f.originalname = [] then
           (dir, { status := 400, body := .json (.obj [("error", .str (js "No file uploaded"))]) })
         else if f.fieldname ≠ js "file" ∨ storable (filename req.body f env) = false then
           (dir, { status := 500, body := .html })
         else
           (writeFile dir (filename req.body f env) f.content,
            { status := 200,
              body := .json (.obj
                [("url", .str (req.protocol ++ js "://" ++ req.host ++ js "/uploads/"
                    ++ filename req.body f env)),
                 ("filename", .str (filename req.body f env))]) })) ∧
    ((postUpload env dir req).2.status = 400 ↔
      (req.file = none ∨ ∃ f, req.file = some f ∧ f.originalname = [])) ∧
    ((postUpload env dir req).2.status = 500 ↔
      ∃ f, req.file = some f ∧ f.originalname ≠ [] ∧
        (f.fieldname ≠ js "file" ∨ storable (filename req.body f env) = false)) ∧
    ((postUpload env dir req).2.status = 200 ↔
      ∃ f, req.file = some f ∧ f.originalname ≠ [] ∧ f.fieldname = js "file" ∧
        storable (filename req.body f env) = true) := by
  obtain ⟨p, h, body, file⟩ := req
  cases file with
  | none =>
    refine ⟨rfl, ?_, ?_, ?_⟩ <;> simp [postUpload, uploadSingle, uploadHandler]
  | some f =>
    by_cases hname : f.originalname = []
    · refine ⟨?_, ?_, ?_, ?_⟩ <;> simp [postUpload, uploadSingle, uploadHandler, hname]
    · by_cases hfield : f.fieldname = js "file"
      · by_cases hst : storable (filename body f env) = true
        · refine ⟨?_, ?_, ?_, ?_⟩ <;>
            simp [postUpload, uploadSingle, uploadHandler, hname, hfield, hst, fullUrl]
        · refine ⟨?_, ?_, ?_, ?_⟩ <;>
            simp [postUpload, uploadSingle, uploadHandler, defaultErrorResponse, hname, hfield,
              hst]
      · refine ⟨?_, ?_, ?_, ?_⟩ <;>
          simp [postUpload, uploadSingle, uploadHandler, defaultErrorResponse, hname, hfield]

/-- C7. For entry names `fs` read from the upload directory the listing
handler answers `200` with `count` the number of names and `files` the objects
`{filename, url}` in the same order, `url` being scheme, `://`, host,
`/uploads/` and the name; for no entries the body is `{"count":0,"files":[]}`;
when reading the directory throws the answer is `500` with an error body. -/
theorem C7_listing_response (p h : JSString) (fs : List JSString) :
    listHandler p h (some fs) =
      { status := 200,
        body := .json (.obj
          [("count", .num fs.length),
           ("files", .arr (fs.map (fun f => Json.obj
              [("filename", .str f),
               ("url", .str (p ++ js "://" ++ h ++ js "/uploads/" ++ f))])))]) } ∧
    listHandler p h (some []) =
      { status := 200, body := .json (.obj [("count", .num 0), ("files", .arr [])]) } ∧
    listHandler p h none =
      { status := 500, body := .json (.obj [("error", .str (js "Failed to list uploads"))]) } := by
  refine ⟨?_, rfl, rfl⟩
  simp only [listHandler, List.length_map, fullUrl]

theorem stripMount_list : stripMount (js "/uploads/list") = some (js "/list") := by
  decide

/-- Without a file named `list` in the directory, `GET /uploads/list` reaches
the listing handler. -/
theorem app_list_of_not_mem (env : Env) (dir : Dir) (u : UploadRequest)
    (h : dir.lookup (js "list") = none) :
    app env dir { method := .GET, path := js "/uploads/list", upload := u }
      = (dir, listHandler u.protocol u.host (some (readdir dir))) := by
  have hs : serveStatic dir .GET (js "/list") = none := by
    have : js "/list" = 47 :: js "list" := by decide
    rw [this]
    simp only [serveStatic, h]
    have hc : ¬ (js "list" = [] ∨ CHAR_FORWARD_SLASH ∈ js "list" ∨
        (js "list").head? = some CHAR_DOT) := by decide
    rw [if_neg hc]
  simp [app, stripMount_list, hs]

/-- With a stored file named `list`, `GET /uploads/list` is answered by the
static route with that file. -/
theorem app_list_of_mem (env : Env) (dir : Dir) (u : UploadRequest) (content : Bytes)
    (h : dir.lookup (js "list") = some content) :
    app env dir { method := .GET, path := js "/uploads/list", upload := u }
      = (dir, { status := 200, body := .file content }) := by
  have hs : serveStatic dir .GET (js "/list") = some { status := 200, body := .file content } := by
    have : js "/list" = 47 :: js "list" := by decide
    rw [this]
    simp only [serveStatic, h]
    have hc : ¬ (js "list" = [] ∨ CHAR_FORWARD_SLASH ∈ js "list" ∨
        (js "list").head? = some CHAR_DOT) := by decide
    rw [if_neg hc]
  simp [app, stripMount_list, hs]

/-- C8 fails on the code: after an upload with identifier `list` of the
extensionless file `notes`, the directory holds the file `list`, and
`GET /uploads/list` is answered by the static route with the bytes of that
file, while the listing handler would have answered with the JSON listing. -/
theorem C8_static_shadows_listing :
    readdir (app { now := 1, random := { m := 1, e := 1 } } ∅
      { method := .POST, path := js "/upload",
        upload := { protocol := js "http", host := js "localhost:3000",
                    body := some { publicId := .str (js "list") },
                    file := some { originalname := js "notes", content := [104, 105] } } }).1
      = [js "list"] ∧
    (app { now := 2, random := { m := 1, e := 1 } }
      (app { now := 1, random := { m := 1, e := 1 } } ∅
        { method := .POST, path := js "/upload",
          upload := { protocol := js "http", host := js "localhost:3000",
                      body := some { publicId := .str (js "list") },
                      file := some { originalname := js "notes", content := [104, 105] } } }).1
      { method := .GET, path := js "/uploads/list",
        upload := { protocol := js "http", host := js "localhost:3000",
                    body := none, file := none } }).2
      = { status := 200, body := .file [104, 105] } ∧
    listHandler (js "http") (js "localhost:3000") (some [js "list"])
      = { status := 200,
          body := .json (.obj
            [("count", .num 1),
             ("files", .arr [.obj [("filename", .str (js "list")),
                                   ("url", .str (js "http://localhost:3000/uploads/list"))]])]) } := by
  refine ⟨by decide, rfl, rfl⟩

end UploadServer
